import Mathlib

/-!
Shallow embedding of `aiogram_forms/base.py`: the field/validator model, the
metaclass-driven state compilation, and the form engine (`start`,
`_handle_input`, `finish`, `get_data`, `get_current_field`).

Modelling conventions:
* `async` Python methods are pure functions here; awaited I/O (sending a
  message, invoking the completion callback, registering a dispatcher
  handler) is logged explicitly in returned effect records.
* Python exceptions (`AttributeError`, `IndexError`) are `Except.error`.
* Validators are abstract in `base.py` (`BaseValidator.validate` is an
  abstract coroutine), so a validator is a handle (`Nat`) resolved through an
  environment `ValidatorEnv` mapping handles to predicates.
* Callbacks are opaque awaitables; they are modelled as `Nat` handles and the
  engine records each invocation together with the argument list it passed.
* The i18n middleware is modelled as absent (`cls._i18n = None`), the
  identity on emitted texts, which is the default when no middleware matches.
* The per-conversation FSM storage (`FSMContext`) is a record of the current
  state string and an association list for the data dict.
-/

namespace AiogramForms

/-- Modelled from the spec: `aiogram_forms/const.py` is not under `src/`.
The spec says the state group name is derived from the form name plus a fixed
suffix; the concrete suffix value is irrelevant to every claim. -/
def STATES_GROUP_SUFFIX : String := "Form"

/-- Modelled from the spec: `aiogram_forms/const.py` is not under `src/`.
The spec says a field's error message falls back to a fixed default constant
when unset; the concrete text is irrelevant to every claim. -/
def DEFAULT_VALIDATION_ERROR_MESSAGE : String := "Invalid value"

/-- Environment resolving validator handles to their `validate` predicates
(`BaseValidator.validate(value) -> bool`). -/
def ValidatorEnv : Type := Nat → String → Bool

/-- Field model, `BaseField`: `_key` (set by `__set_name__` from the attribute name),
`_label`, `_validators` (handles), `_validation_error_message` (already
defaulted by the constructor), and `_state` (assigned at state compilation;
`none` models the attribute being unset). -/
structure Field where
  key : String
  label : String
  validators : List Nat
  validationErrorMessage : String
  stateId : Option String := none
deriving DecidableEq, Repr

/-- Arguments of `BaseField.__init__` (the key is assigned later by
`__set_name__`). -/
structure FieldInit where
  label : String
  validators : Option (List Nat)
  validationErrorMessage : Option String
deriving DecidableEq, Repr

/-- Constructor `BaseField.__init__` combined with `__set_name__`: the label is stored,
the error message falls back to `DEFAULT_VALIDATION_ERROR_MESSAGE` when the
argument is falsy (`None` or the empty string), the validator list defaults to
empty when falsy, and `_key` is set from the owning attribute name. -/
def mkField (attrName : String) (init : FieldInit) : Field :=
  { key := attrName
    label := init.label
    validators :=
      match init.validators with
      | some vs => if vs = [] then [] else vs
      | none => []
    validationErrorMessage :=
      match init.validationErrorMessage with
      | some m => if m = "" then DEFAULT_VALIDATION_ERROR_MESSAGE else m
      | none => DEFAULT_VALIDATION_ERROR_MESSAGE
    stateId := none }

/-- Property `BaseField.state_label`: `f'waiting_{self._key}'`. -/
def stateLabel (f : Field) : String := "waiting_" ++ f.key

/-- Property `BaseField.data_key`: `f'{self._form.name}:{self._key}'`; the owning
form's name is passed explicitly. -/
def dataKey (formName : String) (f : Field) : String := formName ++ ":" ++ f.key

/-- Property `BaseField.validation_error`: returns the stored message. -/
def validationError (f : Field) : String := f.validationErrorMessage

/-- The loop body of `BaseField.validate`: run the validators in order and
return `false` at the first validator that rejects, without consulting the
rest; `true` when the list is exhausted. -/
def validateFrom (env : ValidatorEnv) (vs : List Nat) (x : String) : Bool :=
  match vs with
  | [] => true
  | v :: rest => if env v x then validateFrom env rest x else false

/-- Method `BaseField.validate(value)`. -/
def fieldValidate (env : ValidatorEnv) (f : Field) (x : String) : Bool :=
  validateFrom env f.validators x

/-- Instrumentation of the same loop: how many validators the loop invokes on
input `x` (each loop iteration awaits exactly one `validator.validate` call). -/
def invokedCount (env : ValidatorEnv) (vs : List Nat) (x : String) : Nat :=
  match vs with
  | [] => 0
  | v :: rest => if env v x then invokedCount env rest x + 1 else 1

/-- The per-conversation FSM storage (`FSMContext`): the current state string
(`None` when reset) and the data dict, as an association list in insertion
order (`update_data` replaces the binding of an existing key in place and
appends a new key at the end, like a Python dict merge). -/
structure ConversationState where
  currentState : Option String
  data : List (String × String)
deriving DecidableEq, Repr

/-- Python dict merge for one key, as performed by
`state.update_data(**{field.data_key: message.text})`. -/
def updateData : List (String × String) → String → String → List (String × String)
  | [], k, v => [(k, v)]
  | p :: ps, k, v => if p.1 = k then (k, v) :: ps else p :: updateData ps k v

/-- Lookup `data.get(key)` on the stored dict. -/
def lookupData (d : List (String × String)) (k : String) : Option String :=
  (d.find? (fun p => p.1 = k)).map (fun p => p.2)

/-- A form class as produced by `FormMeta`: `name`, the `_fields` tuple,
the memoized `_state` cache (`None` until the `state` property first runs,
then the compiled `states_names` list), and the `BaseForm` class attributes
`_registered`, `_callback`, `_callback_args`. -/
structure FormClass where
  name : String
  fields : List Field
  stateCache : Option (List String)
  registered : Bool
  callback : Option Nat
  callbackArgs : Option (List String)
deriving DecidableEq, Repr

/-- Class construction `FormMeta.__new__`: builds the class, sets `cls._state = None`,
`cls.name = name`, and collects the `BaseField` values of the namespace, in
declaration order, into `cls._fields` (`__set_name__` has already given each
field its attribute name as key). It performs no validation and never raises,
so it always returns `Except.ok`. -/
def formMetaNew (name : String) (ns : List (String × FieldInit)) :
    Except String FormClass :=
  Except.ok
    { name := name
      fields := ns.map (fun p => mkField p.1 p.2)
      stateCache := none
      registered := false
      callback := none
      callbackArgs := none }

/-- Helper for `dedupKeys`: keep each key whose first occurrence this is,
tracking the keys already seen. -/
def dedupKeysGo : List String → List String → List String
  | [], _ => []
  | x :: xs, seen =>
    if x ∈ seen then dedupKeysGo xs seen else x :: dedupKeysGo xs (x :: seen)

/-- First-occurrence deduplication, the key semantics of the Python dict
comprehension `{field.state_label: State() for field in cls._fields}`. -/
def dedupKeys (l : List String) : List String := dedupKeysGo l []

/-- The `states_names` the dynamically created `StatesGroup` subclass exposes:
one full name `f'{cls.name}{STATES_GROUP_SUFFIX}:{state_label}'` per distinct
state label, in declaration order (aiogram renders a state's full name as
group class name, colon, attribute name). -/
def statesNames (cls : FormClass) : List String :=
  (dedupKeys (cls.fields.map stateLabel)).map
    (fun lbl => cls.name ++ STATES_GROUP_SUFFIX ++ ":" ++ lbl)

/-- The positional assignment loop
`for field, state_name in zip(cls._fields, cls._state.states_names):
field._state = state_name` (`zip` truncates at the shorter list). -/
def assignStates : List Field → List String → List Field
  | f :: fs, n :: ns => { f with stateId := some n } :: assignStates fs ns
  | fs, [] => fs
  | [], _ :: _ => []

/-- The `FormMeta.state` property: when `cls._state` is unset, build the
states group from the fields, assign each field its state name positionally,
and cache the result; otherwise return the cache untouched. Returns the
(possibly updated) class together with the state-name list the property
yields. -/
def stateProperty (cls : FormClass) : FormClass × List String :=
  match cls.stateCache with
  | some names => (cls, names)
  | none =>
    let names := statesNames cls
    ({ cls with stateCache := some names
                fields := assignStates cls.fields names }, names)

/-- Registration `BaseForm._register_handler`: when the class is not yet registered, access
`cls.state` (compiling the states), register `_handle_input` with the
dispatcher for those states, and set the flag. Returns the updated class and
the number of `register_message_handler` calls this invocation performed. -/
def registerHandler (cls : FormClass) : FormClass × Nat :=
  if cls.registered then (cls, 0)
  else ({ (stateProperty cls).1 with registered := true }, 1)

/-- Promotion `BaseForm._start_field_promotion`: set the conversation state to
`field.state` and send the field's label as a message. Reading `field.state`
before compilation assigned it raises `AttributeError`. -/
def startFieldPromotion (conv : ConversationState) (f : Field) :
    Except String (ConversationState × List String) :=
  match f.stateId with
  | none => Except.error "AttributeError: _state"
  | some s => Except.ok ({ conv with currentState := some s }, [f.label])

/-- Result of one `BaseForm.start` call: the mutated class, the result of the
awaited body (`Except.error` models a raised exception; on success the new
conversation state and the texts sent), and how many dispatcher registrations
this call performed. -/
structure StartOutcome where
  cls : FormClass
  result : Except String (ConversationState × List String)
  regCalls : Nat
deriving Repr

/-- Method `BaseForm.start(callback, callback_args)`: store the callback pair only
when `callback` is truthy, run `_register_handler`, then promote
`cls._fields[0]` — indexing raises `IndexError` on a zero-field form. -/
def start (cls : FormClass) (conv : ConversationState)
    (callback : Option Nat) (callbackArgs : Option (List String)) :
    StartOutcome :=
  let cls1 :=
    if callback.isSome then
      { cls with callback := callback, callbackArgs := callbackArgs }
    else cls
  let rh := registerHandler cls1
  { cls := rh.1
    result :=
      match rh.1.fields with
      | [] => Except.error "IndexError: tuple index out of range"
      | f :: _ => startFieldPromotion conv f
    regCalls := rh.2 }

/-- Iterate `start` over a list of `(callback, callback_args)` arguments,
threading the class and the conversation, and summing the dispatcher
registrations performed. -/
def startMany (cls : FormClass) (conv : ConversationState) :
    List (Option Nat × Option (List String)) → FormClass × ConversationState × Nat
  | [] => (cls, conv, 0)
  | c :: cs =>
    let o := start cls conv c.1 c.2
    let conv1 := match o.result with
      | Except.ok r => r.1
      | Except.error _ => conv
    let rest := startMany o.cls conv1 cs
    (rest.1, rest.2.1, o.regCalls + rest.2.2)

/-- Method `BaseForm.get_current_field`: linear scan of `cls._fields` returning the
first field whose assigned state equals the conversation's stored state;
`none` when no field matches (the Python loop falls through and the coroutine
returns `None`). -/
def getCurrentField (cls : FormClass) (conv : ConversationState) : Option Field :=
  cls.fields.find? (fun f => f.stateId == conv.currentState)

/-- Method `BaseForm.finish`: `state.reset_state(with_data=False)` clears the current
state and keeps the data, then the stored callback, when set, is awaited once —
with `*callback_args` when the stored args are truthy, with no arguments
otherwise. Returns the new conversation state and the list of callback
invocations (callback handle, argument list). -/
def finish (cls : FormClass) (conv : ConversationState) :
    ConversationState × List (Nat × List String) :=
  let conv1 : ConversationState := { conv with currentState := none }
  match cls.callback with
  | none => (conv1, [])
  | some cb =>
    match cls.callbackArgs with
    | some args => if args ≠ [] then (conv1, [(cb, args)]) else (conv1, [(cb, [])])
    | none => (conv1, [(cb, [])])

/-- Effects of handling one inbound message: texts sent to the chat and
completion-callback invocations. -/
structure Effects where
  sent : List String
  callbackCalls : List (Nat × List String)
deriving DecidableEq, Repr

/-- Handler `BaseForm._handle_input(message, state)`: resolve the current field (when
no field matches, `field` is `None` and `field.validate` raises
`AttributeError`); on validation failure send the field's validation error and
return; on success merge the value into the data under the field's data key,
then either promote the field after the current one (`index + 1`) or, past the
last field, run `finish`. -/
def handleInput (env : ValidatorEnv) (cls : FormClass) (conv : ConversationState)
    (text : String) : Except String (ConversationState × Effects) :=
  match getCurrentField cls conv with
  | none => Except.error "AttributeError: NoneType has no attribute validate"
  | some field =>
    if fieldValidate env field text then
      let conv1 : ConversationState :=
        { conv with data := updateData conv.data (dataKey cls.name field) text }
      let nextIdx := cls.fields.findIdx (fun g => g == field) + 1
      if h : nextIdx < cls.fields.length then
        match startFieldPromotion conv1 (cls.fields.get ⟨nextIdx, h⟩) with
        | Except.error e => Except.error e
        | Except.ok r => Except.ok (r.1, { sent := r.2, callbackCalls := [] })
      else
        let fin := finish cls conv1
        Except.ok (fin.1, { sent := [], callbackCalls := fin.2 })
    else
      Except.ok (conv, { sent := [validationError field], callbackCalls := [] })

/-- Method `BaseForm.get_data`: under a single `state.proxy()` acquisition, build
`{field.data_key: data.get(field.data_key) for field in cls._fields}`. -/
def getData (cls : FormClass) (conv : ConversationState) :
    List (String × Option String) :=
  cls.fields.map (fun f => (dataKey cls.name f, lookupData conv.data (dataKey cls.name f)))

/-! ### Concrete fixtures (the spec's Signup scenario: a `name` field with a
non-empty validator and an `age` field with a numeric-string validator) -/

/-- Validator environment: handle 0 is the non-empty check, handle 1 a
numeric check (modelled concretely as accepting the one valid age the
scenario uses). -/
def envSample : ValidatorEnv := fun v x =>
  match v with
  | 0 => decide (x ≠ "")
  | 1 => decide (x = "30")
  | _ => false

/-- Signup's `name` field, after compilation assigned its state. -/
def nameField : Field :=
  { key := "name"
    label := "Your name"
    validators := [0]
    validationErrorMessage := DEFAULT_VALIDATION_ERROR_MESSAGE
    stateId := some "SignupForm:waiting_name" }

/-- Signup's `age` field, after compilation assigned its state. -/
def ageField : Field :=
  { key := "age"
    label := "Your age"
    validators := [1]
    validationErrorMessage := "Bad age"
    stateId := some "SignupForm:waiting_age" }

/-- The Signup form class after compilation and registration, with a stored
completion callback. -/
def signupCompiled : FormClass :=
  { name := "Signup"
    fields := [nameField, ageField]
    stateCache := some ["SignupForm:waiting_name", "SignupForm:waiting_age"]
    registered := true
    callback := some 7
    callbackArgs := none }

/-- The Signup form class fresh from `FormMeta.__new__`: uncompiled and not
yet registered. -/
def signupFresh : FormClass :=
  { name := "Signup"
    fields := [{ nameField with stateId := none }, { ageField with stateId := none }]
    stateCache := none
    registered := false
    callback := none
    callbackArgs := none }

/-! ### Helper lemmas -/

lemma validateFrom_eq_all (env : ValidatorEnv) (vs : List Nat) (x : String) :
    validateFrom env vs x = vs.all (fun v => env v x) := by
  induction vs with
  | nil => rfl
  | cons v rest ih =>
    simp only [validateFrom, List.all_cons]
    cases h : env v x <;> simp [h, ih]

lemma invokedCount_spec (env : ValidatorEnv) (vs : List Nat) (x : String) :
    invokedCount env vs x =
      if vs.all (fun v => env v x) then vs.length
      else (vs.takeWhile (fun v => env v x)).length + 1 := by
  induction vs with
  | nil => rfl
  | cons v rest ih =>
    simp only [invokedCount, List.all_cons, List.takeWhile_cons]
    cases h : env v x with
    | true =>
      simp only [if_pos rfl, Bool.true_and, ih]
      by_cases hall : rest.all (fun v => env v x) = true <;>
        simp [hall, List.length_cons]
    | false => simp

lemma stateProperty_callback (cls : FormClass) :
    (stateProperty cls).1.callback = cls.callback
      ∧ (stateProperty cls).1.callbackArgs = cls.callbackArgs
      ∧ (stateProperty cls).1.name = cls.name := by
  unfold stateProperty
  cases cls.stateCache <;> exact ⟨rfl, rfl, rfl⟩

lemma registerHandler_callback (cls : FormClass) :
    (registerHandler cls).1.callback = cls.callback
      ∧ (registerHandler cls).1.callbackArgs = cls.callbackArgs := by
  unfold registerHandler
  split
  · exact ⟨rfl, rfl⟩
  · exact ⟨(stateProperty_callback cls).1, (stateProperty_callback cls).2.1⟩

lemma start_cls_eq (cls : FormClass) (conv : ConversationState)
    (cb : Option Nat) (args : Option (List String)) :
    (start cls conv cb args).cls
      = (registerHandler
          (if cb.isSome then { cls with callback := cb, callbackArgs := args }
           else cls)).1 := rfl

lemma start_regCalls_eq (cls : FormClass) (conv : ConversationState)
    (cb : Option Nat) (args : Option (List String)) :
    (start cls conv cb args).regCalls
      = (registerHandler
          (if cb.isSome then { cls with callback := cb, callbackArgs := args }
           else cls)).2 := rfl

lemma finish_calls_congr (cls1 cls2 : FormClass) (conv : ConversationState)
    (h1 : cls1.callback = cls2.callback) (h2 : cls1.callbackArgs = cls2.callbackArgs) :
    (finish cls1 conv).2 = (finish cls2 conv).2 := by
  unfold finish
  rw [h1, h2]

lemma registerHandler_registered (cls : FormClass) :
    (registerHandler cls).1.registered = true := by
  unfold registerHandler
  split
  · assumption
  · rfl

lemma registerHandler_count (cls : FormClass) :
    (registerHandler cls).2 = if cls.registered then 0 else 1 := by
  unfold registerHandler
  split <;> simp [*]

lemma start_registered (cls : FormClass) (conv : ConversationState)
    (cb : Option Nat) (args : Option (List String)) :
    (start cls conv cb args).cls.registered = true := by
  rw [start_cls_eq]
  exact registerHandler_registered _

lemma start_regCalls (cls : FormClass) (conv : ConversationState)
    (cb : Option Nat) (args : Option (List String)) :
    (start cls conv cb args).regCalls = if cls.registered then 0 else 1 := by
  rw [start_regCalls_eq, registerHandler_count]
  cases cb <;> rfl

lemma startMany_registered_zero (calls : List (Option Nat × Option (List String)))
    (cls : FormClass) (conv : ConversationState) (h : cls.registered = true) :
    (startMany cls conv calls).2.2 = 0 := by
  induction calls generalizing cls conv with
  | nil => rfl
  | cons c cs ih =>
    dsimp only [startMany]
    rw [start_regCalls]
    simp only [h, if_true, Nat.zero_add]
    exact ih _ _ (start_registered cls conv c.1 c.2)

lemma finish_conv_eq (cls : FormClass) (conv : ConversationState) :
    (finish cls conv).1 = { conv with currentState := none } := by
  unfold finish
  cases cls.callback with
  | none => rfl
  | some cb =>
    cases cls.callbackArgs with
    | none => rfl
    | some args => by_cases h : args = [] <;> simp [h]

lemma finish_calls_length (cls : FormClass) (conv : ConversationState)
    (cb : Nat) (hcb : cls.callback = some cb) :
    (finish cls conv).2.length = 1 := by
  unfold finish
  rw [hcb]
  cases cls.callbackArgs with
  | none => rfl
  | some args => by_cases h : args = [] <;> simp [h]

lemma find?_append_last {α : Type} (p : α → Bool) (front : List α) (a : α)
    (hfront : ∀ g ∈ front, p g = false) (ha : p a = true) :
    (front ++ [a]).find? p = some a := by
  induction front with
  | nil => simp [List.find?, ha]
  | cons b l ih =>
    have hb := hfront b (by simp)
    simp only [List.cons_append, List.find?, hb]
    exact ih (fun g hg => hfront g (by simp [hg]))

lemma findIdx_append_last {α : Type} (p : α → Bool) (front : List α) (a : α)
    (hfront : ∀ g ∈ front, p g = false) (ha : p a = true) :
    (front ++ [a]).findIdx p = front.length := by
  induction front with
  | nil => simp [List.findIdx_cons, ha]
  | cons b l ih =>
    have hb := hfront b (by simp)
    simp only [List.cons_append, List.findIdx_cons, hb, cond_false, List.length_cons]
    rw [ih (fun g hg => hfront g (by simp [hg]))]

lemma lookupData_updateData (d : List (String × String)) (k v k' : String) :
    lookupData (updateData d k v) k'
      = if k' = k then some v else lookupData d k' := by
  induction d with
  | nil =>
    by_cases h : k' = k
    · subst h
      simp [updateData, lookupData, List.find?]
    · have h2 : (decide (k = k') : Bool) = false :=
        decide_eq_false (fun hh => h hh.symm)
      simp [updateData, lookupData, List.find?, h, h2]
  | cons p ps ih =>
    by_cases hp : p.1 = k
    · by_cases h : k' = k
      · subst h
        simp [updateData, hp, lookupData, List.find?]
      · have hpk : p.1 ≠ k' := fun hh => h (hh ▸ hp)
        have h2 : (decide (k = k') : Bool) = false :=
          decide_eq_false (fun hh => h hh.symm)
        simp [updateData, hp, lookupData, List.find?, h, h2, hpk]
    · by_cases hq : p.1 = k'
      · have hk : k' ≠ k := fun hh => hp (by rw [hq, hh])
        simp [updateData, hp, lookupData, List.find?, hq, hk]
      · simp only [updateData, hp, if_false, lookupData, List.find?]
        have hq2 : (decide (p.1 = k') : Bool) = false := by simp [hq]
        simp only [hq2, cond_false]
        exact ih

lemma dedupKeysGo_of_nodup (l : List String) (seen : List String)
    (h : l.Nodup) (hdisj : ∀ x ∈ l, x ∉ seen) :
    dedupKeysGo l seen = l := by
  induction l generalizing seen with
  | nil => rfl
  | cons x xs ih =>
    obtain ⟨hx, hxs⟩ := List.nodup_cons.mp h
    rw [dedupKeysGo, if_neg (hdisj x (by simp))]
    congr 1
    refine ih (x :: seen) hxs ?_
    intro y hy
    simp only [List.mem_cons, not_or]
    exact ⟨fun he => hx (he ▸ hy), hdisj y (by simp [hy])⟩

lemma dedupKeys_of_nodup (l : List String) (h : l.Nodup) : dedupKeys l = l :=
  dedupKeysGo_of_nodup l [] h (by simp)

lemma assignStates_eq_zipWith (fs : List Field) (ns : List String)
    (h : fs.length = ns.length) :
    assignStates fs ns
      = List.zipWith (fun f n => { f with stateId := some n }) fs ns := by
  induction fs generalizing ns with
  | nil => cases ns with
    | nil => rfl
    | cons n ns => simp at h
  | cons f fs ih =>
    cases ns with
    | nil => simp at h
    | cons n ns =>
      simp only [assignStates, List.zipWith]
      rw [ih ns (by simpa using h)]

lemma assignStates_nil (ns : List String) : assignStates [] ns = [] := by
  cases ns <;> rfl

lemma stateProperty_fields_nil (cls : FormClass) (h : cls.fields = []) :
    (stateProperty cls).1.fields = [] := by
  unfold stateProperty
  cases hc : cls.stateCache with
  | some names => exact h
  | none => simp [h, assignStates_nil]

lemma registerHandler_fields_nil (cls : FormClass) (h : cls.fields = []) :
    (registerHandler cls).1.fields = [] := by
  unfold registerHandler
  split
  · exact h
  · exact stateProperty_fields_nil cls h

lemma getData_fst (cls : FormClass) (conv : ConversationState) :
    (getData cls conv).map Prod.fst = cls.fields.map (dataKey cls.name) := by
  simp [getData, List.map_map, Function.comp]

/-! ### Claims -/

/-- C1: `Field.validate(value)` returns true iff all of the field's
validators, applied in order, return true; it short-circuits on the first
validator that returns false: the loop invokes every validator when all pass,
and otherwise invokes exactly the validators up to and including the first
failing one, never the ones after it. -/
theorem validate_iff_all_and_short_circuits (env : ValidatorEnv) (f : Field)
    (x : String) :
    (fieldValidate env f x = true ↔ ∀ v ∈ f.validators, env v x = true)
    ∧ invokedCount env f.validators x =
        (if f.validators.all (fun v => env v x) then f.validators.length
         else (f.validators.takeWhile (fun v => env v x)).length + 1) := by
  constructor
  · rw [fieldValidate, validateFrom_eq_all]
    exact List.all_eq_true
  · exact invokedCount_spec env f.validators x

/-- C7: `finish` clears only the state pointer: afterwards `currentState` is
`none` while the conversation's stored data map is unchanged. -/
theorem finish_clears_state_keeps_data (cls : FormClass) (conv : ConversationState) :
    (finish cls conv).1.currentState = none
      ∧ (finish cls conv).1.data = conv.data := by
  unfold finish
  cases cls.callback with
  | none => exact ⟨rfl, rfl⟩
  | some cb =>
    cases cls.callbackArgs with
    | none => exact ⟨rfl, rfl⟩
    | some args => by_cases h : args = [] <;> simp [h]

/-- C9: `get_data` returns a mapping whose keys are exactly every field's
`dataKey` in order, each field mapped to the value currently stored under its
key — `none` for fields not yet answered — all read from the single data
snapshot taken from the state store. -/
theorem get_data_snapshot (cls : FormClass) (conv : ConversationState) :
    ((getData cls conv).map Prod.fst = cls.fields.map (dataKey cls.name))
    ∧ (∀ f ∈ cls.fields,
        (dataKey cls.name f, lookupData conv.data (dataKey cls.name f))
          ∈ getData cls conv)
    ∧ (∀ p ∈ getData cls conv, p.2 = lookupData conv.data p.1) := by
  refine ⟨getData_fst cls conv, ?_, ?_⟩
  · intro f hf
    exact List.mem_map.mpr ⟨f, hf, rfl⟩
  · intro p hp
    obtain ⟨f, _, rfl⟩ := List.mem_map.mp hp
    rfl

/-- C10: `start` with a falsy callback argument leaves the stored callback and
callback args unchanged, so a subsequent `finish` performs exactly the
invocations an earlier `start` installed; a new callback and its args are
stored exactly when the callback argument is truthy. -/
theorem start_stores_callback_only_when_truthy (cls : FormClass)
    (conv : ConversationState) (args : Option (List String)) (c : Nat) :
    ((start cls conv none args).cls.callback = cls.callback
      ∧ (start cls conv none args).cls.callbackArgs = cls.callbackArgs
      ∧ (finish (start cls conv none args).cls conv).2 = (finish cls conv).2)
    ∧ ((start cls conv (some c) args).cls.callback = some c
      ∧ (start cls conv (some c) args).cls.callbackArgs = args) := by
  have hnone := start_cls_eq cls conv none args
  have hsome := start_cls_eq cls conv (some c) args
  simp only [Option.isSome_none, Bool.false_eq_true, if_false] at hnone
  simp only [Option.isSome_some, if_true] at hsome
  have hr1 := registerHandler_callback cls
  have hr2 := registerHandler_callback { cls with callback := some c, callbackArgs := args }
  refine ⟨⟨?_, ?_, ?_⟩, ?_, ?_⟩
  · rw [hnone]; exact hr1.1
  · rw [hnone]; exact hr1.2
  · exact finish_calls_congr _ _ conv (by rw [hnone]; exact hr1.1)
      (by rw [hnone]; exact hr1.2)
  · rw [hsome]; exact hr2.1
  · rw [hsome]; exact hr2.2

/-- C3: while the conversation awaits a field, an inbound value failing
validation leaves the conversation (state and data) unchanged, sends exactly
the field's configured validation error, invokes no callback, and raises no
exception (the handler returns normally). -/
theorem handle_input_invalid_value_reprompts (env : ValidatorEnv)
    (cls : FormClass) (conv : ConversationState) (text : String) (f : Field)
    (hfield : getCurrentField cls conv = some f)
    (hvalid : fieldValidate env f text = false) :
    handleInput env cls conv text
      = Except.ok (conv, { sent := [validationError f], callbackCalls := [] }) := by
  simp [handleInput, hfield, hvalid]

/-- Witness for C3: in the Signup form awaiting `age`, the non-numeric input
"abc" fails validation; the handler keeps the conversation unchanged and sends
only the configured "Bad age" message. -/
theorem handle_input_invalid_value_reprompts_witness :
    handleInput envSample signupCompiled
        ⟨some "SignupForm:waiting_age", [("Signup:name", "Alice")]⟩ "abc"
      = Except.ok (⟨some "SignupForm:waiting_age", [("Signup:name", "Alice")]⟩,
          { sent := ["Bad age"], callbackCalls := [] }) :=
  handle_input_invalid_value_reprompts envSample signupCompiled
    ⟨some "SignupForm:waiting_age", [("Signup:name", "Alice")]⟩ "abc" ageField
    (by decide) (by decide)

/-- C5: when the conversation's stored state matches no field of the form,
`get_current_field` returns `None` and `_handle_input` then raises an
`AttributeError` by calling `.validate` on `None` — the code does not stop
silently as the spec requires. -/
theorem handle_input_unmatched_state_raises (env : ValidatorEnv)
    (cls : FormClass) (conv : ConversationState) (text : String)
    (hmiss : ∀ f ∈ cls.fields, f.stateId ≠ conv.currentState) :
    handleInput env cls conv text
      = Except.error "AttributeError: NoneType has no attribute validate" := by
  have hnone : getCurrentField cls conv = none := by
    unfold getCurrentField
    rw [List.find?_eq_none]
    intro f hf hbeq
    exact hmiss f hf (eq_of_beq hbeq)
  simp [handleInput, hnone]

/-- Witness for C5: a conversation whose state belongs to no Signup field
makes the handler raise instead of stopping. -/
theorem handle_input_unmatched_state_raises_witness :
    handleInput envSample signupCompiled ⟨some "Other:state", []⟩ "hello"
      = Except.error "AttributeError: NoneType has no attribute validate" :=
  handle_input_unmatched_state_raises envSample signupCompiled
    ⟨some "Other:state", []⟩ "hello" (by decide)

/-- C8: however many times `start` is called on a form that has not yet
registered its dispatcher handler, the handler registration is performed
exactly once over the whole sequence; once the `registered` flag is set the
hook is never invoked again. -/
theorem dispatcher_registration_exactly_once (cls : FormClass)
    (conv : ConversationState)
    (calls : List (Option Nat × Option (List String)))
    (hfresh : cls.registered = false) (hne : calls ≠ []) :
    (startMany cls conv calls).2.2 = 1 := by
  cases calls with
  | nil => exact absurd rfl hne
  | cons c cs =>
    dsimp only [startMany]
    rw [start_regCalls]
    simp only [hfresh, if_false, Bool.false_eq_true]
    rw [startMany_registered_zero cs _ _ (start_registered cls conv c.1 c.2)]

/-- Witness for C8: three consecutive `start` calls on the fresh Signup form
register the dispatcher handler exactly once. -/
theorem dispatcher_registration_exactly_once_witness :
    (startMany signupFresh ⟨none, []⟩
        [(some 1, none), (some 2, some ["a"]), (none, none)]).2.2 = 1 :=
  dispatcher_registration_exactly_once signupFresh ⟨none, []⟩
    [(some 1, none), (some 2, some ["a"]), (none, none)] (by decide) (by decide)

/-- C4: for a freshly constructed form with N≥1 fields and distinct state
labels, state compilation is memoized and idempotent — accessing the `state`
property a second time returns the identical class and the identical state
set with nothing recompiled, duplicated or reordered — and the compiled state
set has exactly one state per field in declaration order, with each field
assigned the state at its own position. -/
theorem state_compilation_memoized_positional (cls : FormClass)
    (hcache : cls.stateCache = none)
    (hN : cls.fields ≠ [])
    (hnodup : (cls.fields.map stateLabel).Nodup) :
    (stateProperty (stateProperty cls).1).1 = (stateProperty cls).1
    ∧ (stateProperty (stateProperty cls).1).2 = (stateProperty cls).2
    ∧ (stateProperty cls).2
        = cls.fields.map
            (fun f => cls.name ++ STATES_GROUP_SUFFIX ++ ":" ++ stateLabel f)
    ∧ (stateProperty cls).1.fields
        = List.zipWith (fun f n => { f with stateId := some n })
            cls.fields ((stateProperty cls).2) := by
  have hns : statesNames cls
      = cls.fields.map
          (fun f => cls.name ++ STATES_GROUP_SUFFIX ++ ":" ++ stateLabel f) := by
    unfold statesNames
    rw [dedupKeys_of_nodup _ hnodup, List.map_map]
    simp [Function.comp]
  have h1 : stateProperty cls
      = ({ cls with stateCache := some (statesNames cls),
                    fields := assignStates cls.fields (statesNames cls) },
         statesNames cls) := by
    unfold stateProperty
    rw [hcache]
  have hlen : cls.fields.length = (statesNames cls).length := by
    rw [hns, List.length_map]
  refine ⟨?_, ?_, ?_, ?_⟩
  · rw [h1]
    rfl
  · rw [h1]
    rfl
  · rw [h1, hns]
  · rw [h1]
    dsimp only
    rw [assignStates_eq_zipWith _ _ hlen]

/-- Witness for C4: compiling the fresh Signup form is memoized, yields one
state per field in order, and assigns each field its own state. -/
theorem state_compilation_memoized_positional_witness :
    (stateProperty (stateProperty signupFresh).1).1 = (stateProperty signupFresh).1
    ∧ (stateProperty (stateProperty signupFresh).1).2 = (stateProperty signupFresh).2
    ∧ (stateProperty signupFresh).2
        = signupFresh.fields.map
            (fun f => signupFresh.name ++ STATES_GROUP_SUFFIX ++ ":" ++ stateLabel f)
    ∧ (stateProperty signupFresh).1.fields
        = List.zipWith (fun f n => { f with stateId := some n })
            signupFresh.fields ((stateProperty signupFresh).2) :=
  state_compilation_memoized_positional signupFresh rfl (by decide) (by decide)

/-- C2: when the conversation awaits the last field of a form and the inbound
value passes validation, the handler returns normally with the conversation's
state reset to `none`, the stored completion callback invoked exactly once,
and the collected data mapping holding exactly one entry per field, every
entry filled. -/
theorem handle_input_last_field_completes (env : ValidatorEnv) (cls : FormClass)
    (conv : ConversationState) (text : String) (front : List Field) (f : Field)
    (cb : Nat)
    (hfields : cls.fields = front ++ [f])
    (hstate : conv.currentState = f.stateId)
    (hfront : ∀ g ∈ front, g.stateId ≠ f.stateId)
    (hvalid : fieldValidate env f text = true)
    (hcb : cls.callback = some cb)
    (hdata : ∀ g ∈ front, (lookupData conv.data (dataKey cls.name g)).isSome = true)
    (hkeys : (cls.fields.map (dataKey cls.name)).Nodup) :
    ∃ conv' eff, handleInput env cls conv text = Except.ok (conv', eff)
      ∧ conv'.currentState = none
      ∧ eff.callbackCalls.length = 1
      ∧ (getData cls conv').map Prod.fst = cls.fields.map (dataKey cls.name)
      ∧ ((getData cls conv').map Prod.fst).Nodup
      ∧ ∀ p ∈ getData cls conv', p.2.isSome = true := by
  have hpfront : ∀ g ∈ front, (g.stateId == conv.currentState) = false := by
    intro g hg
    rw [hstate]
    exact beq_eq_false_iff_ne.mpr (hfront g hg)
  have hpf : (f.stateId == conv.currentState) = true := by
    rw [hstate]
    exact beq_self_eq_true _
  have hfind : getCurrentField cls conv = some f := by
    unfold getCurrentField
    rw [hfields]
    exact find?_append_last _ front f hpfront hpf
  have hqfront : ∀ g ∈ front, (g == f) = false := by
    intro g hg
    exact beq_eq_false_iff_ne.mpr (fun he => hfront g hg (by rw [he]))
  have hidx : cls.fields.findIdx (fun g => g == f) = front.length := by
    rw [hfields]
    exact findIdx_append_last _ front f hqfront (beq_self_eq_true f)
  have hlen : cls.fields.length = front.length + 1 := by
    rw [hfields]
    simp
  have hnot : ¬ (cls.fields.findIdx (fun g => g == f) + 1 < cls.fields.length) := by
    rw [hidx, hlen]
    omega
  simp only [handleInput, hfind, hvalid, if_true]
  rw [dif_neg hnot]
  refine ⟨_, _, rfl, ?_, ?_, getData_fst cls _, ?_, ?_⟩
  · rw [finish_conv_eq]
  · exact finish_calls_length cls _ cb hcb
  · rw [getData_fst]
    exact hkeys
  · intro p hp
    rw [finish_conv_eq] at hp
    obtain ⟨g, hg, rfl⟩ := List.mem_map.mp hp
    dsimp only
    rw [lookupData_updateData]
    by_cases hgf : dataKey cls.name g = dataKey cls.name f
    · rw [if_pos hgf]
      rfl
    · rw [if_neg hgf]
      have hg2 : g ∈ front := by
        rcases List.mem_append.mp (by rw [← hfields]; exact hg) with h | h
        · exact h
        · exact absurd (by rw [List.mem_singleton.mp h]) hgf
      exact hdata g hg2

/-- Witness for C2: in the Signup conversation awaiting `age` with `name`
already collected, the valid input "30" resets the state, fires the callback
once, and leaves one filled data entry per field. -/
theorem handle_input_last_field_completes_witness :
    ∃ conv' eff,
      handleInput envSample signupCompiled
          ⟨some "SignupForm:waiting_age", [("Signup:name", "Alice")]⟩ "30"
        = Except.ok (conv', eff)
      ∧ conv'.currentState = none
      ∧ eff.callbackCalls.length = 1
      ∧ (getData signupCompiled conv').map Prod.fst
          = signupCompiled.fields.map (dataKey signupCompiled.name)
      ∧ ((getData signupCompiled conv').map Prod.fst).Nodup
      ∧ ∀ p ∈ getData signupCompiled conv', p.2.isSome = true :=
  handle_input_last_field_completes envSample signupCompiled
    ⟨some "SignupForm:waiting_age", [("Signup:name", "Alice")]⟩ "30"
    [nameField] ageField 7
    (by decide) (by decide) (by decide) (by decide) (by decide) (by decide)
    (by decide)

/-- Counterexample for C6: a form with zero fields is constructed without any
error at the definition/compile step (`FormMeta.__new__` succeeds), and the
failure only appears when `start` runs and indexes `fields[0]`. -/
theorem empty_form_no_construction_failure_cex :
    (formMetaNew "Empty" []).isOk = true
    ∧ (start { name := "Empty", fields := [], stateCache := none,
               registered := false, callback := none, callbackArgs := none }
         ⟨none, []⟩ (some 0) none).result
        = Except.error "IndexError: tuple index out of range" :=
  ⟨rfl, rfl⟩

/-- C6 (amended): constructing a form with zero fields raises no error at
definition/compile time; the failure surfaces only at runtime, when `start`
is called and raises an `IndexError` accessing the first field. -/
theorem empty_form_fails_only_at_start (name : String) (cls : FormClass)
    (conv : ConversationState) (cb : Option Nat) (args : Option (List String))
    (hfields : cls.fields = []) :
    (formMetaNew name []).isOk = true
    ∧ (start cls conv cb args).result
        = Except.error "IndexError: tuple index out of range" := by
  refine ⟨rfl, ?_⟩
  have h2 : (registerHandler
      (if cb.isSome then { cls with callback := cb, callbackArgs := args }
       else cls)).1.fields = [] :=
    registerHandler_fields_nil _ (by cases cb <;> simpa using hfields)
  unfold start
  dsimp only
  rw [h2]

/-- Witness for C6 (amended): the zero-field form built by `FormMeta.__new__`
itself makes `start` raise. -/
theorem empty_form_fails_only_at_start_witness :
    (formMetaNew "Empty" []).isOk = true
    ∧ (start { name := "Empty", fields := [], stateCache := none,
               registered := false, callback := none, callbackArgs := none }
         ⟨none, []⟩ (some 3) (some ["x"])).result
        = Except.error "IndexError: tuple index out of range" :=
  empty_form_fails_only_at_start "Empty"
    { name := "Empty", fields := [], stateCache := none, registered := false,
      callback := none, callbackArgs := none }
    ⟨none, []⟩ (some 3) (some ["x"]) rfl

end AiogramForms
